import Mathlib

/-!
# FundaMental — verification of the extraction-and-reconciliation core

Shallow embedding of the FundaMental real-estate crawler in Lean 4, covering:

* the reconciliation store (`src/server/scripts/scrapers/funda/database.py`:
  `get_property_status`, `insert_property`);
* price normalization (`src/server/scripts/scrapers/funda/pipelines.py`,
  `FundaPipeline.process_item`);
* energy-label extraction (`src/server/scripts/scrapers/funda/spiders/funda_spider.py`,
  `parse_house`);
* listing discovery and the crawl-stop state machine (same file, `parse`;
  and `src/funda/spiders/funda_spider_sold.py`, `parse`);
* the batch dispatcher (`src/scripts/spiders/funda_spider.py`,
  `parse_property` / `closed`).

Python strings are modelled as Lean `String` / `List Char`; a nullable
Python value (`item.get(...)` returning `None`) is an `Option`; the SQLite
`properties` table is a `List Row` in insertion order (the server-generated
`id` surrogate key is omitted; `created_at`, which `UPDATE` never touches,
is kept).
-/

namespace FundaMental

/-- A scraped item as passed to `FundaDB.insert_property`
(`item.get(field)` is `none` when the field was never extracted).
Mirrors the 14 fields read by `insert_property` at
`src/server/scripts/scrapers/funda/database.py` lines 102-116. -/
structure Item where
  url : String
  street : Option String := none
  neighborhood : Option String := none
  property_type : Option String := none
  city : Option String := none
  postal_code : Option String := none
  price : Option Int := none
  year_built : Option Int := none
  living_area : Option Int := none
  num_rooms : Option Int := none
  status : Option String := none
  listing_date : Option String := none
  selling_date : Option String := none
  scraped_at : Option String := none
deriving DecidableEq, Repr

/-- One row of the SQLite `properties` table (schema at `database.py`
lines 31-52).  The autoincrement `id` is omitted; `created_at` is kept
because the `UPDATE` statement does not touch it. -/
structure Row where
  url : String
  street : Option String
  neighborhood : Option String
  property_type : Option String
  city : Option String
  postal_code : Option String
  price : Option Int
  year_built : Option Int
  living_area : Option Int
  num_rooms : Option Int
  status : Option String
  listing_date : Option String
  selling_date : Option String
  scraped_at : Option String
  created_at : String
deriving DecidableEq, Repr

/-- `FundaDB.get_property_status` (`database.py` lines 65-71):
`SELECT status FROM properties WHERE url = ?` followed by `fetchone()`;
returns `none` both when no row matches and when the matched row's
`status` column is NULL (`result[0] if result else None`). -/
def get_property_status (rows : List Row) (url : String) : Option String :=
  match rows.find? (fun r => decide (r.url = url)) with
  | none => none
  | some r => r.status

/-- The column assignments of the `UPDATE` statement at `database.py`
lines 86-117: the 13 non-key columns are set to the item's values;
`url` (the key) and `created_at` are untouched. -/
def updateFields (item : Item) (r : Row) : Row :=
  { r with
    street := item.street
    neighborhood := item.neighborhood
    property_type := item.property_type
    city := item.city
    postal_code := item.postal_code
    price := item.price
    year_built := item.year_built
    living_area := item.living_area
    num_rooms := item.num_rooms
    status := item.status
    listing_date := item.listing_date
    selling_date := item.selling_date
    scraped_at := item.scraped_at }

/-- The row created by the `INSERT` statement at `database.py`
lines 121-142; `created_at` comes from the column default
`CURRENT_TIMESTAMP`, passed here as `createdNow`. -/
def insertRow (item : Item) (createdNow : String) : Row :=
  { url := item.url
    street := item.street
    neighborhood := item.neighborhood
    property_type := item.property_type
    city := item.city
    postal_code := item.postal_code
    price := item.price
    year_built := item.year_built
    living_area := item.living_area
    num_rooms := item.num_rooms
    status := item.status
    listing_date := item.listing_date
    selling_date := item.selling_date
    scraped_at := item.scraped_at
    created_at := createdNow }

/-- Effect of the `UPDATE ... WHERE url = ?` statement on the table:
every row whose `url` matches gets the item's field values. -/
def sqlUpdate (rows : List Row) (item : Item) : List Row :=
  rows.map (fun r => if r.url = item.url then updateFields item r else r)

/-- `cursor.rowcount` after the `UPDATE`: the number of rows whose
`url` matched. -/
def sqlRowcount (rows : List Row) (item : Item) : Nat :=
  (rows.filter (fun r => decide (r.url = item.url))).length

/-- The update-else-insert part of `insert_property` (`database.py`
lines 85-142): run the `UPDATE`; if `cursor.rowcount == 0`, run the
`INSERT` instead (appending to the table). -/
def apply_sql (rows : List Row) (item : Item) (createdNow : String) : List Row :=
  if sqlRowcount rows item = 0 then sqlUpdate rows item ++ [insertRow item createdNow]
  else sqlUpdate rows item

/-- `FundaDB.insert_property` (`database.py` lines 73-148), success path:
look up the stored status; if it is `'inactive'` and the observed status
is `'active'`, rewrite the item's status to `'republished'`
(lines 79-83); then update-else-insert and return `True`. -/
def insert_property (rows : List Row) (item : Item) (createdNow : String) :
    List Row × Bool :=
  let item' :=
    if get_property_status rows item.url = some "inactive" ∧
        item.status = some "active"
    then { item with status := some "republished" } else item
  (apply_sql rows item' createdNow, true)

/-- Where a sqlite3 failure strikes during one `insert_property` call:
nowhere, at the `sqlite3.connect` call (line 75, *outside* the
`try`), or inside the `try` block (lines 78-145). -/
inductive SqlOutcome where
  | ok : SqlOutcome
  | failConnect : SqlOutcome
  | failDuring : SqlOutcome
deriving DecidableEq, Repr

/-- `FundaDB.insert_property` including its error handling
(`database.py` lines 73-148).  `sqlite3.connect(self.db_path)` at line 75
sits outside the `try`, so a `sqlite3.Error` raised there propagates to
the caller (`Except.error`).  A `sqlite3.Error` raised inside the `try`
(status lookup, `UPDATE`, `INSERT`, or `commit`) is caught at line 146:
nothing was committed, the table is unchanged, and `False` is returned. -/
def insert_property_run (rows : List Row) (item : Item) (createdNow : String) :
    SqlOutcome → Except String (List Row × Bool)
  | .failConnect => .error "sqlite3.Error"
  | .failDuring => .ok (rows, false)
  | .ok => .ok (insert_property rows item createdNow)

/-! ## Reconciliation-store lemmas -/

theorem updateFields_url (item : Item) (r : Row) :
    (updateFields item r).url = r.url := rfl

theorem insertRow_url (item : Item) (c : String) :
    (insertRow item c).url = item.url := rfl

/-- After the update-else-insert, the stored status at the item's URL is
exactly the item's status. -/
theorem get_status_apply_sql (rows : List Row) (item : Item) (c : String) :
    get_property_status (apply_sql rows item c) item.url = item.status := by
  induction rows with
  | nil =>
      simp [apply_sql, sqlRowcount, sqlUpdate, get_property_status,
        List.find?, insertRow]
  | cons r rs ih =>
      by_cases h : r.url = item.url
      · simp [apply_sql, sqlRowcount, sqlUpdate, get_property_status,
          List.find?, h, updateFields]
      · have hstep :
            apply_sql (r :: rs) item c = r :: apply_sql rs item c := by
          simp [apply_sql, sqlRowcount, sqlUpdate, h]
          split <;> simp
        rw [hstep]
        simpa [get_property_status, List.find?, h] using ih

/-- Every row of the updated table that sits at the item's URL already
carries exactly the item's field values, so re-applying the `UPDATE`
assignments to it changes nothing. -/
theorem mem_apply_sql_updated (rows : List Row) (item : Item) (c : String) :
    ∀ r' ∈ apply_sql rows item c, r'.url = item.url →
      updateFields item r' = r' := by
  intro r' hmem hurl
  unfold apply_sql at hmem
  have hmem' : r' ∈ sqlUpdate rows item ∨ r' = insertRow item c := by
    split at hmem
    · rcases List.mem_append.mp hmem with h | h
      · exact Or.inl h
      · exact Or.inr (List.mem_singleton.mp h)
    · exact Or.inl hmem
  rcases hmem' with h | h
  · rcases List.mem_map.mp h with ⟨r0, _, hr0⟩
    by_cases hu : r0.url = item.url
    · rw [← hr0, if_pos hu]
      rfl
    · rw [← hr0, if_neg hu] at hurl ⊢
      exact absurd hurl hu
  · rw [h]
    rfl

/-- The updated table always contains a row at the item's URL. -/
theorem exists_row_apply_sql (rows : List Row) (item : Item) (c : String) :
    ∃ r', r' ∈ apply_sql rows item c ∧ r'.url = item.url := by
  unfold apply_sql
  by_cases h0 : sqlRowcount rows item = 0
  · refine ⟨insertRow item c, ?_, rfl⟩
    rw [if_pos h0]
    exact List.mem_append.mpr (Or.inr (List.mem_singleton.mpr rfl))
  · have hne : rows.filter (fun r => decide (r.url = item.url)) ≠ [] := by
      intro hnil
      exact h0 (by simp [sqlRowcount, hnil])
    rcases List.exists_mem_of_ne_nil _ hne with ⟨r, hr⟩
    rcases List.mem_filter.mp hr with ⟨hmem, hp⟩
    have hurl : r.url = item.url := of_decide_eq_true hp
    refine ⟨updateFields item r, ?_, by rw [updateFields_url, hurl]⟩
    rw [if_neg h0]
    exact List.mem_map.mpr ⟨r, hmem, by rw [if_pos hurl]⟩

/-- The `UPDATE` assignments are a no-op on a table whose matching rows
already carry the item's values. -/
theorem sqlUpdate_self (l : List Row) (item : Item)
    (h : ∀ r ∈ l, r.url = item.url → updateFields item r = r) :
    sqlUpdate l item = l := by
  induction l with
  | nil => rfl
  | cons r rs ih =>
      have hr : r.url = item.url → updateFields item r = r :=
        fun hu => h r (List.mem_cons_self r rs) hu
      have hrs : ∀ r' ∈ rs, r'.url = item.url → updateFields item r' = r' :=
        fun r' hm hu => h r' (List.mem_cons_of_mem r hm) hu
      simp only [sqlUpdate, List.map_cons]
      rw [show List.map _ rs = sqlUpdate rs item from rfl, ih hrs]
      by_cases hu : r.url = item.url
      · rw [if_pos hu, hr hu]
      · rw [if_neg hu]

/-- Re-applying the same `UPDATE` assignments to an already-updated table
is a no-op. -/
theorem sqlUpdate_apply_sql (rows : List Row) (item : Item) (c : String) :
    sqlUpdate (apply_sql rows item c) item = apply_sql rows item c :=
  sqlUpdate_self _ item (mem_apply_sql_updated rows item c)

theorem rowcount_apply_sql_ne (rows : List Row) (item : Item) (c : String) :
    sqlRowcount (apply_sql rows item c) item ≠ 0 := by
  rcases exists_row_apply_sql rows item c with ⟨r', hmem, hurl⟩
  have hfil : r' ∈ (apply_sql rows item c).filter
      (fun r => decide (r.url = item.url)) :=
    List.mem_filter.mpr ⟨hmem, decide_eq_true hurl⟩
  simp only [sqlRowcount]
  exact Nat.pos_iff_ne_zero.mp (List.length_pos_of_mem hfil)

/-- The update-else-insert step is idempotent for a fixed item: the
second application matches at least one row (`rowcount ≠ 0`), takes the
`UPDATE` branch, and writes back values already present. -/
theorem apply_sql_idem (rows : List Row) (item : Item) (c c' : String) :
    apply_sql (apply_sql rows item c) item c' = apply_sql rows item c := by
  rw [apply_sql, if_neg (rowcount_apply_sql_ne rows item c),
    sqlUpdate_apply_sql]

/-! ## Concrete store states used as witnesses and counterexamples -/

/-- A stored row for URL `"u"` whose status is `'sold'`. -/
def soldRow : Row :=
  { url := "u", street := none, neighborhood := none, property_type := none
    city := none, postal_code := none, price := none, year_built := none
    living_area := none, num_rooms := none, status := some "sold"
    listing_date := none, selling_date := none, scraped_at := none
    created_at := "t0" }

/-- A stored row for URL `"u"` whose status is `'inactive'`. -/
def inactiveRow : Row :=
  { url := "u", street := none, neighborhood := none, property_type := none
    city := none, postal_code := none, price := none, year_built := none
    living_area := none, num_rooms := none, status := some "inactive"
    listing_date := none, selling_date := none, scraped_at := none
    created_at := "t0" }

/-- A freshly scraped observation of URL `"u"` with status `'active'`
(the default an active-mode spider assigns). -/
def activeObs : Item :=
  { url := "u", status := some "active", scraped_at := some "t1" }

/-! ## C1 — sold status is not protected -/

/-- C1 counterexample: the claim says a stored `'sold'` status is never
changed away by an upsert with a non-sold observed status.  In the code
(`database.py` lines 73-148) the only status special-case is the
inactive-to-republished rewrite; the `UPDATE` at lines 86-117 then
overwrites `status` unconditionally.  Concretely: the store holds `"u"`
with status `'sold'`; upserting an observation of `"u"` with status
`'active'` leaves the stored status `'active'`, not `'sold'`. -/
theorem sold_status_overwritten_cex :
    get_property_status [soldRow] "u" = some "sold" ∧
    activeObs.url = "u" ∧
    activeObs.status ≠ some "sold" ∧
    get_property_status (insert_property [soldRow] activeObs "t1").1 "u"
      = some "active" := by decide

/-- C1 amended: `insert_property` enforces no sold-monotonicity.  When
the stored status at the item's URL is `'sold'`, the republish rewrite
cannot fire (it needs `'inactive'`), so the upsert stores the observed
status unchanged — whatever it is. -/
theorem insert_property_sold_not_protected (rows : List Row) (item : Item)
    (c : String) (h : get_property_status rows item.url = some "sold") :
    get_property_status (insert_property rows item c).1 item.url
      = item.status := by
  have hneg : ¬(get_property_status rows item.url = some "inactive" ∧
      item.status = some "active") := by
    rw [h]
    rintro ⟨h1, -⟩
    exact absurd h1 (by decide)
  simp only [insert_property]
  rw [if_neg hneg]
  exact get_status_apply_sql rows item c

theorem insert_property_sold_not_protected_witness :
    get_property_status [soldRow] activeObs.url = some "sold" ∧
    get_property_status (insert_property [soldRow] activeObs "t1").1
      activeObs.url = activeObs.status :=
  ⟨by decide,
    insert_property_sold_not_protected [soldRow] activeObs "t1" (by decide)⟩

/-! ## C2 — inactive + active observation gives republished, once -/

/-- C2: if the stored status is `'inactive'` and the observed status is
`'active'`, the upsert stores `'republished'` (`database.py` lines
79-83); a further upsert of the same URL with observed status `'active'`
then stores plain `'active'`, because the stored status is now
`'republished'`, not `'inactive'` — the rewrite does not re-trigger. -/
theorem republish_then_active (rows : List Row) (item item2 : Item)
    (c c' : String) (hurl : item2.url = item.url)
    (h1 : item.status = some "active") (h2 : item2.status = some "active")
    (hdb : get_property_status rows item.url = some "inactive") :
    get_property_status (insert_property rows item c).1 item.url
      = some "republished" ∧
    get_property_status
      (insert_property (insert_property rows item c).1 item2 c').1 item.url
      = some "active" := by
  have hdb1 : (insert_property rows item c).1
      = apply_sql rows { item with status := some "republished" } c := by
    simp only [insert_property]
    rw [if_pos ⟨hdb, h1⟩]
  have hst1 : get_property_status (insert_property rows item c).1 item.url
      = some "republished" := by
    rw [hdb1]
    exact get_status_apply_sql rows { item with status := some "republished" } c
  refine ⟨hst1, ?_⟩
  generalize hg : (insert_property rows item c).1 = db1 at hst1 ⊢
  have hneg2 : ¬(get_property_status db1 item2.url = some "inactive" ∧
      item2.status = some "active") := by
    rw [hurl, hst1]
    rintro ⟨hc, -⟩
    exact absurd hc (by decide)
  simp only [insert_property]
  rw [if_neg hneg2, ← hurl]
  have := get_status_apply_sql db1 item2 c'
  rw [h2] at this
  exact this

theorem republish_then_active_witness :
    get_property_status [inactiveRow] activeObs.url = some "inactive" ∧
    (get_property_status (insert_property [inactiveRow] activeObs "t1").1
        activeObs.url = some "republished" ∧
      get_property_status
        (insert_property (insert_property [inactiveRow] activeObs "t1").1
          activeObs "t2").1 activeObs.url = some "active") :=
  ⟨by decide,
    republish_then_active [inactiveRow] activeObs activeObs "t1" "t2"
      rfl rfl rfl (by decide)⟩

/-! ## C3 — upsert idempotence fails across the republish rewrite -/

/-- C3 counterexample: upserting the *identical* record twice is not
always equivalent to upserting it once up to `scraped_at`.  With a
stored `'inactive'` row, the first upsert of an `'active'` observation
stores `'republished'`; the second upsert of the same record finds
`'republished'`, does not rewrite, and stores `'active'`.  The stored
states differ in `status`, while `scraped_at` (carried by the record) is
identical in both. -/
theorem upsert_not_idempotent_cex :
    get_property_status (insert_property [inactiveRow] activeObs "t1").1 "u"
      = some "republished" ∧
    get_property_status
      (insert_property (insert_property [inactiveRow] activeObs "t1").1
        activeObs "t1").1 "u" = some "active" ∧
    some "active" ≠ some "republished" := by decide

/-- C3 amended: unless the upsert is the republish transition (stored
status `'inactive'` and observed status `'active'`), applying
`insert_property` twice with the identical record yields exactly the
same store state (and return value) as applying it once — the identical
record carries the same `scraped_at`, so even that column agrees — and
the second application takes the `UPDATE` branch, never adding a row. -/
theorem insert_property_idempotent_unless_republish (rows : List Row)
    (item : Item) (c c' : String)
    (h : ¬(get_property_status rows item.url = some "inactive" ∧
      item.status = some "active")) :
    insert_property (insert_property rows item c).1 item c'
      = insert_property rows item c := by
  have e1 : insert_property rows item c = (apply_sql rows item c, true) := by
    simp only [insert_property]
    rw [if_neg h]
  have hst : get_property_status (apply_sql rows item c) item.url
      = item.status := get_status_apply_sql rows item c
  have hneg2 : ¬(get_property_status (apply_sql rows item c) item.url
      = some "inactive" ∧ item.status = some "active") := by
    rw [hst]
    rintro ⟨hc1, hc2⟩
    rw [hc2] at hc1
    exact absurd hc1 (by decide)
  have e2 : insert_property (apply_sql rows item c) item c'
      = (apply_sql (apply_sql rows item c) item c', true) := by
    simp only [insert_property]
    rw [if_neg hneg2]
  rw [e1]
  show insert_property (apply_sql rows item c) item c'
      = (apply_sql rows item c, true)
  rw [e2, apply_sql_idem]

theorem insert_property_idempotent_unless_republish_witness :
    ¬(get_property_status [] activeObs.url = some "inactive" ∧
      activeObs.status = some "active") ∧
    insert_property (insert_property [] activeObs "t0").1 activeObs "t1"
      = insert_property [] activeObs "t0" :=
  ⟨by decide,
    insert_property_idempotent_unless_republish [] activeObs "t0" "t1"
      (by decide)⟩

/-! ## C10 — error handling of insert_property -/

/-- C10 counterexample to "a database exception is never propagated":
the `sqlite3.connect` call at `database.py` line 75 sits *outside* the
`try` that starts at line 78, so a `sqlite3.Error` raised while opening
the connection propagates to the caller instead of returning `False`. -/
theorem insert_property_connect_error_cex :
    insert_property_run [] activeObs "t0" SqlOutcome.failConnect
      = Except.error "sqlite3.Error" := rfl

/-- C10 amended: on the success path `insert_property` returns `True`
after the row was inserted or updated; a `sqlite3.Error` raised inside
the `try` block (status lookup, `UPDATE`, `INSERT`, or `commit`) is
caught and turned into `False` with the table unchanged; but an error
raised while opening the connection (outside the `try`) propagates. -/
theorem insert_property_error_handling_amended :
    ∀ (rows : List Row) (item : Item) (c : String),
      insert_property_run rows item c SqlOutcome.ok
        = Except.ok (insert_property rows item c) ∧
      (insert_property rows item c).2 = true ∧
      insert_property_run rows item c SqlOutcome.failDuring
        = Except.ok (rows, false) :=
  fun _ _ _ => ⟨rfl, rfl, rfl⟩

/-! ## Price normalization (`pipelines.py`, `FundaPipeline.process_item`) -/

/-- Python's `str.replace(c, '')` for a single-character pattern: drop
every occurrence of that character. -/
def removeChar (c : Char) (s : List Char) : List Char :=
  s.filter (fun a => decide (a ≠ c))

/-- Python's `str.strip()`: drop leading and trailing whitespace. -/
def pyStrip (s : List Char) : List Char :=
  ((s.dropWhile Char.isWhitespace).reverse.dropWhile Char.isWhitespace).reverse

/-- Decimal value of a digit string. -/
def digitsToNat (ds : List Char) : Nat :=
  ds.foldl (fun n c => 10 * n + (c.toNat - '0'.toNat)) 0

/-- The price cleanup of `FundaPipeline.process_item`
(`src/server/scripts/scrapers/funda/pipelines.py` lines 12-18):
`price_str = item.price.replace('€', '').replace('.', '').replace(',', '').strip()`
then `int(float(price_str))`, with `ValueError` giving `None`.

`int(float(t))` is modelled for the unsigned decimal forms price markup
produces: after the replaces `t` contains no `'.'` or `','`, so `float`
succeeds exactly when `t` is a nonempty digit string (Python `float`
also accepts signs, exponents and infinity words, which no price string
reaches after currency/digit filtering), and `int` of that float is its
decimal value. -/
def clean_price (s : String) : Option Int :=
  let t := pyStrip (removeChar ',' (removeChar '.' (removeChar '€' s.data)))
  if t ≠ [] ∧ t.all Char.isDigit = true then some (digitsToNat t : Int)
  else none

/-- The `price` branch of `FundaPipeline.process_item`: `None` stays
absent, an already-numeric price is untouched (`isinstance(item.price,
str)` fails), and a string price goes through `clean_price`, with parse
failure setting the field to `None` (a warning, not an error). -/
def processPrice : Option (Int ⊕ String) → Option Int
  | none => none
  | some (Sum.inl n) => some n
  | some (Sum.inr s) => clean_price s

/-- Insert a `'.'` thousands separator after every three characters of a
reversed digit string. -/
def groupDigitsRev : List Char → List Char
  | [] => []
  | [a] => [a]
  | [a, b] => [a, b]
  | a :: b :: c :: rest =>
      a :: b :: c :: (if rest.isEmpty then [] else '.' :: groupDigitsRev rest)

/-- Render a digit string with `'.'` thousands separators, Dutch style
(`450000` becomes `450.000`). -/
def groupThousands (ds : List Char) : List Char :=
  (groupDigitsRev ds.reverse).reverse

/-! ## Price-normalization lemmas -/

theorem removeChar_of_not_mem (c : Char) (l : List Char)
    (h : ∀ a ∈ l, a ≠ c) : removeChar c l = l :=
  List.filter_eq_self.mpr fun a ha => decide_eq_true (h a ha)

theorem removeChar_cons_ne (c a : Char) (l : List Char) (h : a ≠ c) :
    removeChar c (a :: l) = a :: removeChar c l := by
  simp [removeChar, List.filter_cons, h]

theorem removeChar_cons_eq (c : Char) (l : List Char) :
    removeChar c (c :: l) = removeChar c l := by
  simp [removeChar, List.filter_cons]

theorem mem_groupDigitsRev (ds : List Char) (a : Char)
    (h : a ∈ groupDigitsRev ds) : a ∈ ds ∨ a = '.' := by
  induction ds using groupDigitsRev.induct with
  | case1 => simp [groupDigitsRev] at h
  | case2 x => exact Or.inl h
  | case3 x y => exact Or.inl h
  | case4 x y z rest ih =>
      simp only [groupDigitsRev, List.mem_cons] at h
      simp only [List.mem_cons]
      rcases h with h1 | h1 | h1 | hrest
      · exact Or.inl (Or.inl h1)
      · exact Or.inl (Or.inr (Or.inl h1))
      · exact Or.inl (Or.inr (Or.inr (Or.inl h1)))
      · by_cases hr : rest.isEmpty
        · rw [if_pos hr] at hrest
          simp at hrest
        · rw [if_neg hr] at hrest
          rcases List.mem_cons.mp hrest with h2 | h2
          · exact Or.inr h2
          · rcases ih h2 with h3 | h3
            · exact Or.inl (Or.inr (Or.inr (Or.inr h3)))
            · exact Or.inr h3

theorem removeChar_dot_groupDigitsRev (ds : List Char)
    (h : ∀ a ∈ ds, a ≠ '.') :
    removeChar '.' (groupDigitsRev ds) = ds := by
  induction ds using groupDigitsRev.induct with
  | case1 => rfl
  | case2 x =>
      show removeChar '.' [x] = [x]
      exact removeChar_of_not_mem _ _ h
  | case3 x y =>
      show removeChar '.' [x, y] = [x, y]
      exact removeChar_of_not_mem _ _ h
  | case4 x y z rest ih =>
      have hx : x ≠ '.' := h x (by simp)
      have hy : y ≠ '.' := h y (by simp)
      have hz : z ≠ '.' := h z (by simp)
      simp only [groupDigitsRev]
      rw [removeChar_cons_ne _ _ _ hx, removeChar_cons_ne _ _ _ hy,
        removeChar_cons_ne _ _ _ hz]
      by_cases hr : rest.isEmpty
      · rw [if_pos hr]
        have hrest : rest = [] := List.isEmpty_iff.mp hr
        simp [hrest, removeChar]
      · rw [if_neg hr, removeChar_cons_eq,
          ih (fun a ha => h a (by simp [ha]))]

theorem removeChar_dot_groupThousands (ds : List Char)
    (h : ∀ a ∈ ds, a ≠ '.') :
    removeChar '.' (groupThousands ds) = ds := by
  unfold groupThousands removeChar
  rw [List.filter_reverse]
  rw [show List.filter (fun a => decide (a ≠ '.')) (groupDigitsRev ds.reverse)
      = removeChar '.' (groupDigitsRev ds.reverse) from rfl]
  rw [removeChar_dot_groupDigitsRev ds.reverse
    (fun a ha => h a (List.mem_reverse.mp ha))]
  exact List.reverse_reverse ds

theorem digit_ne {a : Char} (h : a.isDigit = true) (c : Char)
    (hc : c.isDigit = false) : a ≠ c := by
  intro he
  rw [he, hc] at h
  cases h

theorem isDigit_not_ws {c : Char} (h : c.isDigit = true) :
    ¬ c.isWhitespace = true := by
  intro hw
  have hcases : ((c = ' ' ∨ c = '\t') ∨ c = '\r') ∨ c = '\n' := by
    simpa [Char.isWhitespace] using hw
  rw [or_assoc, or_assoc] at hcases
  rcases hcases with h1 | h1 | h1 | h1 <;>
    (subst h1; exact absurd h (by decide))

theorem dropWhile_ws_digits (ds : List Char)
    (h : ∀ a ∈ ds, a.isDigit = true) :
    ds.dropWhile Char.isWhitespace = ds := by
  cases ds with
  | nil => rfl
  | cons c rest =>
      rw [List.dropWhile_cons_of_neg (isDigit_not_ws (h c (by simp)))]

theorem pyStrip_space_digits (ds : List Char)
    (h : ∀ a ∈ ds, a.isDigit = true) : pyStrip (' ' :: ds) = ds := by
  unfold pyStrip
  rw [List.dropWhile_cons_of_pos (by decide), dropWhile_ws_digits ds h,
    dropWhile_ws_digits ds.reverse (fun a ha => h a (List.mem_reverse.mp ha)),
    List.reverse_reverse]

/-! ## C4 — price normalization -/

/-- C4 counterexample to the claim that `'.'` is treated as thousands
separator and `','` as decimal separator when both appear: the pipeline
deletes *both* (`pipelines.py` line 14), so the decimal digits are
concatenated onto the integer.  `"€ 1.234,56"` parses to `123456`, not
to `1234` (the integer part the claim's locale reading implies). -/
theorem clean_price_comma_concatenated_cex :
    clean_price "€ 1.234,56" = some 123456 ∧
    (123456 : Int) ≠ 1234 := by decide

/-- C4 amended: price normalization strips the currency symbol and then
deletes every `'.'` and every `','` before integer parsing.  Any
thousands-grouped digit string parses to its exact integer; when both
separators appear they are both deleted, so decimal digits are
concatenated onto the integer (`"€ 1.234,56"` gives `123456`); a string
that still fails to parse sets the price to absent (`None`, with a
warning), never an error. -/
theorem price_normalization_amended :
    (∀ ds : List Char, ds ≠ [] → ds.all Char.isDigit = true →
      clean_price ⟨'€' :: ' ' :: groupThousands ds⟩
        = some (digitsToNat ds : Int)) ∧
    clean_price "€ 1.234,56" = some 123456 ∧
    (∀ s : String, clean_price s = none →
      processPrice (some (Sum.inr s)) = none) ∧
    processPrice (some (Sum.inr "Prijs op aanvraag")) = none := by
  refine ⟨?_, by decide, fun s hs => by simpa [processPrice] using hs, by decide⟩
  intro ds hne hdig
  have hdigall : ∀ a ∈ ds, a.isDigit = true := fun a ha =>
    List.all_eq_true.mp hdig a ha
  have hgm : ∀ a ∈ groupThousands ds, a ∈ ds ∨ a = '.' := fun a ha => by
    rcases mem_groupDigitsRev ds.reverse a (List.mem_reverse.mp ha) with h | h
    · exact Or.inl (List.mem_reverse.mp h)
    · exact Or.inr h
  have e1 : removeChar '€' ('€' :: ' ' :: groupThousands ds)
      = ' ' :: groupThousands ds := by
    rw [removeChar_cons_eq, removeChar_cons_ne _ _ _ (by decide),
      removeChar_of_not_mem _ _ (fun a ha => by
        rcases hgm a ha with h | h
        · exact digit_ne (hdigall a h) _ (by decide)
        · rw [h]; decide)]
  have e2 : removeChar '.' (' ' :: groupThousands ds) = ' ' :: ds := by
    rw [removeChar_cons_ne _ _ _ (by decide),
      removeChar_dot_groupThousands ds
        (fun a ha => digit_ne (hdigall a ha) _ (by decide))]
  have e3 : removeChar ',' (' ' :: ds) = ' ' :: ds := by
    rw [removeChar_cons_ne _ _ _ (by decide),
      removeChar_of_not_mem _ _
        (fun a ha => digit_ne (hdigall a ha) _ (by decide))]
  show clean_price _ = _
  unfold clean_price
  rw [show (String.mk ('€' :: ' ' :: groupThousands ds)).data
      = '€' :: ' ' :: groupThousands ds from rfl]
  rw [e1, e2, e3, pyStrip_space_digits ds hdigall]
  rw [if_pos ⟨hne, hdig⟩]

theorem price_normalization_amended_witness :
    (['4', '5', '0', '0', '0', '0'] : List Char) ≠ [] ∧
    clean_price ⟨'€' :: ' ' :: groupThousands ['4', '5', '0', '0', '0', '0']⟩
      = some 450000 :=
  ⟨by decide,
    price_normalization_amended.1 ['4', '5', '0', '0', '0', '0']
      (by decide) (by decide)⟩

/-! ## Energy-label extraction (`funda_spider.py`, `parse_house`) -/

/-- The validation pattern `^[A-G](\+{1,2})?$` of `re.match` at
`src/server/scripts/scrapers/funda/spiders/funda_spider.py` line 220:
one letter A through G, optionally followed by one or two plus signs,
anchored at both ends. -/
def matchesEnergyPattern (s : List Char) : Bool :=
  match s with
  | [] => false
  | c :: rest =>
      decide (c ∈ (['A', 'B', 'C', 'D', 'E', 'F', 'G'] : List Char)) &&
      rest.all (fun a => decide (a = '+')) && decide (rest.length ≤ 2)

/-- The HTML-selector loop at `funda_spider.py` lines 216-223: each
selector yields either no node (`none`) or a text.  An empty text is
falsy in Python and skipped like `none`; otherwise the text is stripped
and upper-cased and accepted only if it matches the validation pattern;
a non-matching value falls through to the next selector. -/
def htmlEnergyLabel : List (Option String) → Option String
  | [] => none
  | none :: rest => htmlEnergyLabel rest
  | some v :: rest =>
      if v = "" then htmlEnergyLabel rest
      else
        let clean := (pyStrip v.data).map Char.toUpper
        if matchesEnergyPattern clean = true then some ⟨clean⟩
        else htmlEnergyLabel rest

/-- The language of the capture group `([A-G]\+*)` of the regex at
`funda_spider.py` line 236, compiled with `re.IGNORECASE`: one letter
A-G in either case followed by *any* number of plus signs. -/
def jsonLdCaptureOk (s : List Char) : Bool :=
  match s with
  | [] => false
  | c :: rest =>
      decide (c ∈ (['A', 'B', 'C', 'D', 'E', 'F', 'G',
        'a', 'b', 'c', 'd', 'e', 'f', 'g'] : List Char)) &&
      rest.all (fun a => decide (a = '+'))

/-- The JSON-LD fallback at `funda_spider.py` lines 229-242, modelled at
the level of the regex capture: `capture` is the text the capture group
matched (hence a word of the group's language), or `none` when the regex
found no match.  The stored label is `match.group(1).upper()` — with no
further validation against the `^[A-G](\+{1,2})?$` pattern. -/
def jsonLdEnergyLabel : Option String → Option String
  | none => none
  | some cap =>
      if jsonLdCaptureOk cap.data = true then some ⟨cap.data.map Char.toUpper⟩
      else none

/-- The keyword alternation `energi(?:elabel|eklasse)` of the regex at
`funda_spider.py` line 250: if the text starts with either keyword,
return the remainder.  (The two keywords differ at their eighth letter,
so at most one can match at a given position.) -/
def energyKeyword (s : List Char) : Option (List Char) :=
  if "energielabel".data.isPrefixOf s then some (s.drop 12)
  else if "energieklasse".data.isPrefixOf s then some (s.drop 13)
  else none

/-- The tail `\s*([a-g](?:\+{1,2})?)` of the description regex: skip
whitespace, read one lowercase letter a-g (the text was lowercased
first), then greedily up to two plus signs. -/
def energyCapture (s : List Char) : Option (List Char) :=
  match s.dropWhile Char.isWhitespace with
  | [] => none
  | c :: rest =>
      if c ∈ (['a', 'b', 'c', 'd', 'e', 'f', 'g'] : List Char) then
        some (c :: (rest.takeWhile (fun a => decide (a = '+'))).take 2)
      else none

/-- `re.search` of the description regex over one lowercased text: try
every start position left to right; at each, the whole pattern (keyword,
optional whitespace, capture) must match. -/
def descSearch : List Char → Option (List Char)
  | [] => none
  | c :: rest =>
      match energyKeyword (c :: rest) with
      | some r =>
          match energyCapture r with
          | some cap => some cap
          | none => descSearch rest
      | none => descSearch rest

/-- The description-text fallback at `funda_spider.py` lines 245-254:
each text node is stripped and lowercased; the first node on which the
regex finds a match sets the label to the capture upper-cased. -/
def descEnergyLabel : List String → Option String
  | [] => none
  | t :: rest =>
      match descSearch ((pyStrip t.data).map Char.toLower) with
      | some cap => some ⟨cap.map Char.toUpper⟩
      | none => descEnergyLabel rest

/-- Energy-label extraction precedence in `parse_house`: HTML selectors
first (lines 216-223), then JSON-LD (lines 229-242) if not found, then
description text (lines 245-254) if still not found. -/
def extractEnergyLabel (htmlCands : List (Option String))
    (jsonCapture : Option String) (descTexts : List String) :
    Option String :=
  match htmlEnergyLabel htmlCands with
  | some v => some v
  | none =>
      match jsonLdEnergyLabel jsonCapture with
      | some v => some v
      | none => descEnergyLabel descTexts

/-! ## Energy-label lemmas -/

theorem mem_upper_of_either {c : Char}
    (h : c ∈ (['A', 'B', 'C', 'D', 'E', 'F', 'G',
      'a', 'b', 'c', 'd', 'e', 'f', 'g'] : List Char)) :
    Char.toUpper c ∈ (['A', 'B', 'C', 'D', 'E', 'F', 'G'] : List Char) := by
  fin_cases h <;> decide

theorem energyCapture_shape (s cap : List Char)
    (h : energyCapture s = some cap) :
    matchesEnergyPattern (cap.map Char.toUpper) = true := by
  unfold energyCapture at h
  split at h
  · cases h
  next c rest =>
      split at h
      next hc =>
          cases h
          simp only [List.map_cons, matchesEnergyPattern, Bool.and_eq_true,
            decide_eq_true_eq, List.all_eq_true, List.length_map]
          refine ⟨⟨?_, ?_⟩, ?_⟩
          · exact mem_upper_of_either (by fin_cases hc <;> decide)
          · intro a ha
            rcases List.mem_map.mp ha with ⟨b, hb, hba⟩
            have hb' : b = '+' := by
              have := List.mem_takeWhile_imp (List.mem_of_mem_take hb)
              simpa using this
            rw [← hba, hb']
            decide
          · exact List.length_take_le 2 _
      next => cases h

theorem descSearch_shape (s cap : List Char) (h : descSearch s = some cap) :
    matchesEnergyPattern (cap.map Char.toUpper) = true := by
  induction s with
  | nil => cases h
  | cons c rest ih =>
      simp only [descSearch] at h
      split at h
      next r hk =>
          split at h
          next cap' hcap =>
              cases h
              exact energyCapture_shape r cap hcap
          next hcap => exact ih h
      next hk => exact ih h

theorem htmlEnergyLabel_valid (cands : List (Option String)) (v : String)
    (h : htmlEnergyLabel cands = some v) :
    matchesEnergyPattern v.data = true := by
  induction cands with
  | nil => cases h
  | cons o rest ih =>
      cases o with
      | none => exact ih h
      | some s =>
          by_cases hs : s = ""
          · rw [show htmlEnergyLabel (some s :: rest) = htmlEnergyLabel rest
              from by simp [htmlEnergyLabel, hs]] at h
            exact ih h
          · simp only [htmlEnergyLabel, if_neg hs] at h
            by_cases hm :
                matchesEnergyPattern ((pyStrip s.data).map Char.toUpper) = true
            · rw [if_pos hm] at h
              cases h
              exact hm
            · rw [if_neg hm] at h
              exact ih h

theorem descEnergyLabel_valid (texts : List String) (v : String)
    (h : descEnergyLabel texts = some v) :
    matchesEnergyPattern v.data = true := by
  induction texts with
  | nil => cases h
  | cons t rest ih =>
      simp only [descEnergyLabel] at h
      cases hd : descSearch ((pyStrip t.data).map Char.toLower) with
      | none => rw [hd] at h; exact ih h
      | some cap =>
          rw [hd] at h
          cases h
          exact descSearch_shape _ cap hd

/-! ## C5 — energy-label validation -/

/-- C5 counterexample: the claim says every stored energy label matches
`^[A-G](\+{1,2})?$` on every extraction path.  The JSON-LD path's
capture group is `[A-G]\+*` (`funda_spider.py` line 236) — *any* number
of plus signs — and the captured value is stored upper-cased with no
further validation.  With no HTML hit and a JSON-LD block carrying
`"energyLabel": "A+++"`, the stored label is `A+++`, which has three
plus signs and fails the claimed pattern. -/
theorem energy_label_jsonld_cex :
    extractEnergyLabel [] (some "A+++") [] = some "A+++" ∧
    matchesEnergyPattern "A+++".data = false := by decide

/-- C5 amended: the HTML-selector path and the description-text path
only ever store values matching `^[A-G](\+{1,2})?$`; the JSON-LD path
stores one letter A-G followed by any number of plus signs (so `A+++`
and longer can enter the store through it). -/
theorem energy_label_pattern_amended :
    (∀ (cands : List (Option String)) (v : String),
      htmlEnergyLabel cands = some v → matchesEnergyPattern v.data = true) ∧
    (∀ (texts : List String) (v : String),
      descEnergyLabel texts = some v → matchesEnergyPattern v.data = true) ∧
    (∀ (cap : Option String) (v : String), jsonLdEnergyLabel cap = some v →
      ∃ c rest, v.data = c :: rest ∧
        c ∈ (['A', 'B', 'C', 'D', 'E', 'F', 'G'] : List Char) ∧
        ∀ a ∈ rest, a = '+') := by
  refine ⟨htmlEnergyLabel_valid, descEnergyLabel_valid, ?_⟩
  intro cap v h
  cases cap with
  | none => cases h
  | some s =>
      simp only [jsonLdEnergyLabel] at h
      by_cases hok : jsonLdCaptureOk s.data = true
      · rw [if_pos hok] at h
        cases h
        cases hsd : s.data with
        | nil => rw [hsd] at hok; cases hok
        | cons c rest =>
            rw [hsd] at hok
            simp only [jsonLdCaptureOk, Bool.and_eq_true, decide_eq_true_eq,
              List.all_eq_true] at hok
            refine ⟨Char.toUpper c, rest.map Char.toUpper, ?_, ?_, ?_⟩
            · show List.map Char.toUpper (c :: rest)
                  = Char.toUpper c :: List.map Char.toUpper rest
              rw [List.map_cons]
            · exact mem_upper_of_either hok.1
            · intro a ha
              rcases List.mem_map.mp ha with ⟨b, hb, hba⟩
              have hb' : b = '+' := by simpa using hok.2 b hb
              rw [← hba, hb']
              decide
      · rw [if_neg hok] at h
        cases h

theorem energy_label_pattern_amended_witness :
    htmlEnergyLabel [none, some " a++ "] = some "A++" ∧
    matchesEnergyPattern (String.data "A++") = true :=
  ⟨by decide,
    energy_label_pattern_amended.1 [none, some " a++ "] "A++" (by decide)⟩

/-! ## Listing discovery (`funda_spider.py`, `parse`, lines 92-125) -/

/-- Python's `needle in haystack` substring test. -/
def containsSub (needle : List Char) : List Char → Bool
  | [] => needle.isEmpty
  | c :: rest => needle.isPrefixOf (c :: rest) || containsSub needle rest

/-- The detail-page URL pattern test `'/detail/koop/' in url` used by
both discovery sources (`funda_spider.py` lines 104 and 114). -/
def isDetailUrl (u : String) : Bool :=
  containsSub "/detail/koop/".data u.data

/-- One embedded `application/ld+json` block as the discovery loop sees
it: `none` when `json.loads` fails, the value is not a dict, or it has
no `itemListElement`; otherwise the list of the items' `url` fields
(`none` for an item without a `url`). -/
abbrev JsonLdBlock := Option (List (Option String))

/-- Python `set.add`: insert if not already present (first-insertion
order kept so the collection stays a list). -/
def addUrl (acc : List String) (u : String) : List String :=
  if u ∈ acc then acc else acc ++ [u]

/-- The `all_listing_urls` collection of `parse` (`funda_spider.py`
lines 92-116): first the JSON-LD loop — every item whose `url` is
present, truthy (non-empty) and contains the detail pattern is added —
then the HTML-selector loop — every href containing the detail pattern
is resolved against the page URL (`response.urljoin`) and added. -/
def discover (scripts : List JsonLdBlock) (htmls : List String)
    (urljoin : String → String) : List String :=
  let s1 := scripts.foldl (fun acc sc =>
    match sc with
    | none => acc
    | some items => items.foldl (fun acc2 it =>
        match it with
        | some url =>
            if url ≠ "" ∧ isDetailUrl url = true then addUrl acc2 url
            else acc2
        | none => acc2) acc) []
  htmls.foldl (fun acc u =>
    if isDetailUrl u = true then addUrl acc (urljoin u) else acc) s1

/-- Source (a) of the specification: the URLs found in embedded JSON-LD
item-list blocks, filtered to the detail-page URL pattern. -/
def jsonLdSource : List JsonLdBlock → List String
  | [] => []
  | none :: rest => jsonLdSource rest
  | some items :: rest =>
      (items.filterMap id).filter (fun u => isDetailUrl u) ++ jsonLdSource rest

/-- Source (b) of the specification: the URLs found by the HTML list
selectors, filtered to the detail-page URL pattern and resolved. -/
def htmlSource (htmls : List String) (urljoin : String → String) :
    List String :=
  (htmls.filter (fun u => isDetailUrl u)).map urljoin

/-! ## Discovery lemmas -/

theorem mem_addUrl (acc : List String) (u a : String) :
    a ∈ addUrl acc u ↔ a ∈ acc ∨ a = u := by
  by_cases h : u ∈ acc
  · simp only [addUrl, if_pos h]
    exact ⟨Or.inl, fun x => x.elim id (fun he => he ▸ h)⟩
  · simp [addUrl, if_neg h]

theorem isDetailUrl_empty : isDetailUrl "" = false := by decide

theorem mem_html_fold (htmls : List String) (urljoin : String → String)
    (acc : List String) (a : String) :
    (a ∈ htmls.foldl (fun acc u =>
        if isDetailUrl u = true then addUrl acc (urljoin u) else acc) acc) ↔
      a ∈ acc ∨ a ∈ htmlSource htmls urljoin := by
  induction htmls generalizing acc with
  | nil => simp [htmlSource]
  | cons h t ih =>
      by_cases hd : isDetailUrl h = true
      · simp only [List.foldl_cons, if_pos hd]
        rw [ih]
        simp [htmlSource, List.filter_cons, hd, mem_addUrl]
        tauto
      · simp only [List.foldl_cons, if_neg hd]
        rw [ih]
        simp [htmlSource, List.filter_cons, hd]

theorem mem_items_fold (items : List (Option String)) (acc : List String)
    (a : String) :
    (a ∈ items.foldl (fun acc2 it =>
        match it with
        | some url =>
            if url ≠ "" ∧ isDetailUrl url = true then addUrl acc2 url
            else acc2
        | none => acc2) acc) ↔
      a ∈ acc ∨ a ∈ (items.filterMap id).filter (fun u => isDetailUrl u) := by
  induction items generalizing acc with
  | nil => simp
  | cons it rest ih =>
      cases it with
      | none => simp only [List.foldl_cons]; rw [ih]; simp
      | some url =>
          by_cases hc : url ≠ "" ∧ isDetailUrl url = true
          · simp only [List.foldl_cons, if_pos hc]
            rw [ih]
            simp [List.filterMap_cons, List.filter_cons, hc.2, mem_addUrl]
            tauto
          · simp only [List.foldl_cons, if_neg hc]
            rw [ih]
            have hd : isDetailUrl url = false := by
              by_cases hu : url = ""
              · rw [hu]; exact isDetailUrl_empty
              · rcases Bool.eq_false_or_eq_true (isDetailUrl url) with h | h
                · exact absurd ⟨hu, h⟩ hc
                · exact h
            simp [List.filterMap_cons, List.filter_cons, hd]

theorem mem_scripts_fold (scripts : List JsonLdBlock) (acc : List String)
    (a : String) :
    (a ∈ scripts.foldl (fun acc sc =>
        match sc with
        | none => acc
        | some items => items.foldl (fun acc2 it =>
            match it with
            | some url =>
                if url ≠ "" ∧ isDetailUrl url = true then addUrl acc2 url
                else acc2
            | none => acc2) acc) acc) ↔
      a ∈ acc ∨ a ∈ jsonLdSource scripts := by
  induction scripts generalizing acc with
  | nil => simp [jsonLdSource]
  | cons sc rest ih =>
      cases sc with
      | none => simp only [List.foldl_cons]; rw [ih]; simp [jsonLdSource]
      | some items =>
          simp only [List.foldl_cons]
          rw [ih, mem_items_fold]
          simp [jsonLdSource]
          tauto

/-! ## C6 — discovery is the union of both sources -/

/-- C6: for every search-results page (any list of structured blocks and
any list of selector hrefs), the candidate set built by `parse` contains
exactly the union of (a) the JSON-LD item-list URLs and (b) the HTML
selector hrefs, each filtered to the `/detail/koop/` pattern (HTML
hrefs additionally resolved via `urljoin`); in particular a listing
present in only one of the two sources is still returned. -/
theorem discover_union (scripts : List JsonLdBlock) (htmls : List String)
    (urljoin : String → String) (u : String) :
    u ∈ discover scripts htmls urljoin ↔
      u ∈ jsonLdSource scripts ∨ u ∈ htmlSource htmls urljoin := by
  unfold discover
  rw [mem_html_fold, mem_scripts_fold]
  simp

/-! ## Crawl-stop state machine (`funda_spider.py`, `parse`) -/

/-- Terminal reasons a crawl run stops yielding page requests. -/
inductive StopReason where
  | blocked : StopReason
  | emptyPages : StopReason
  | noNewListings : StopReason
  | maxPages : StopReason
deriving DecidableEq, Repr

/-- One listing page as `parse` sees it: whether the response status
signals a block (403/302/503), and the candidate detail URLs collected
by discovery (`all_listing_urls`). -/
structure PageInput where
  blocked : Bool
  candidates : List String
deriving DecidableEq, Repr

/-- The mutable crawl state of the server active spider
(`src/server/scripts/scrapers/funda/spiders/funda_spider.py`,
`__init__` lines 30-47): page counter, this run's processed set, the
database's known active/inactive/republished URLs, the two consecutive
counters (limits `MAX_EMPTY_PAGES = 3`, `MAX_NO_NEW_LISTINGS = 3`), the
page budget, and the terminal stop reason once the run has ended. -/
structure CrawlState where
  pageCount : Nat
  processedUrls : List String
  existingUrls : List String
  newItemsFound : Nat
  emptyPagesCount : Nat
  noNewCount : Nat
  maxPages : Option Nat
  stopped : Option StopReason
deriving DecidableEq, Repr

/-- One `parse` callback of the server active spider
(`funda_spider.py` lines 84-186).  A stopped run receives no further
pages (first guard).  Then, in source order: the block check (lines
88-90); `new_listing_urls` (lines 119-120); the consecutive-empty-pages
check (lines 127-135, threshold 3, reset on any non-empty page); the
consecutive-no-new-listings check (lines 137-145, threshold 3, reset
and bookkeeping when new URLs exist); pagination bounded by `max_pages`
(lines 158-186). -/
def parseStep (s : CrawlState) (p : PageInput) : CrawlState :=
  if s.stopped.isSome then s
  else if p.blocked then { s with stopped := some StopReason.blocked }
  else
    let newUrls := p.candidates.filter
      (fun u => decide (¬ u ∈ s.processedUrls ∧ ¬ u ∈ s.existingUrls))
    if p.candidates.isEmpty ∧ 3 ≤ s.emptyPagesCount + 1 then
      { s with emptyPagesCount := s.emptyPagesCount + 1
               stopped := some StopReason.emptyPages }
    else
      let s1 :=
        if p.candidates.isEmpty then
          { s with emptyPagesCount := s.emptyPagesCount + 1 }
        else { s with emptyPagesCount := 0 }
      if newUrls.isEmpty ∧ 3 ≤ s1.noNewCount + 1 then
        { s1 with noNewCount := s1.noNewCount + 1
                  stopped := some StopReason.noNewListings }
      else
        let s2 :=
          if newUrls.isEmpty then { s1 with noNewCount := s1.noNewCount + 1 }
          else
            { s1 with noNewCount := 0
                      newItemsFound := s1.newItemsFound + newUrls.length
                      processedUrls := s1.processedUrls ++ newUrls }
        match s2.maxPages with
        | none => { s2 with pageCount := s2.pageCount + 1 }
        | some m =>
            if s2.pageCount < m then { s2 with pageCount := s2.pageCount + 1 }
            else { s2 with stopped := some StopReason.maxPages }

/-- A run over a sequence of listing pages, in page order. -/
def runPages (init : CrawlState) (pages : List PageInput) : CrawlState :=
  pages.foldl parseStep init

/-- Fresh state at crawl start (`__init__`): page 1, empty processed
set, counters zero. -/
def initState (existing : List String) (maxPages : Option Nat) : CrawlState :=
  { pageCount := 1, processedUrls := [], existingUrls := existing
    newItemsFound := 0, emptyPagesCount := 0, noNewCount := 0
    maxPages := maxPages, stopped := none }

/-- The mutable crawl state of the sold spider
(`src/funda/spiders/funda_spider_sold.py`, `__init__` lines 30-46):
no consecutive counters, `max_pages` always set (default 200). -/
structure SoldState where
  pageCount : Nat
  processedUrls : List String
  existingUrls : List String
  newItemsFound : Nat
  maxPages : Nat
  stopped : Option StopReason
deriving DecidableEq, Repr

/-- One `parse` callback of the sold spider (`funda_spider_sold.py`
lines 118-202).  Candidates are already filtered to the detail pattern
during collection (lines 138 and 148); the seen-filter against
`processed_urls` and `existing_urls` happens there too.  Bookkeeping
(lines 152-158) precedes the stop check at lines 169-172: *one* page
with no new listings ends the run immediately.  Pagination is bounded
by `max_pages` (lines 175-202). -/
def soldParseStep (s : SoldState) (p : PageInput) : SoldState :=
  if s.stopped.isSome then s
  else if p.blocked then { s with stopped := some StopReason.blocked }
  else
    let newUrls := p.candidates.filter
      (fun u => decide (¬ u ∈ s.processedUrls ∧ ¬ u ∈ s.existingUrls))
    let s1 := { s with processedUrls := s.processedUrls ++ newUrls
                       newItemsFound := s.newItemsFound + newUrls.length }
    if newUrls.isEmpty then { s1 with stopped := some StopReason.noNewListings }
    else if s1.pageCount < s1.maxPages then
      { s1 with pageCount := s1.pageCount + 1 }
    else { s1 with stopped := some StopReason.maxPages }

/-- Fresh sold-spider state (`__init__`). -/
def initSoldState (existing : List String) (maxPages : Nat) : SoldState :=
  { pageCount := 1, processedUrls := [], existingUrls := existing
    newItemsFound := 0, maxPages := maxPages, stopped := none }

/-! ## Batch dispatcher (`src/scripts/spiders/funda_spider.py`) -/

/-- `self.buffer_size = 100` (`funda_spider.py` line 32). -/
def bufferSize : Nat := 100

/-- Dispatcher state: the in-memory buffer and the batches emitted so
far (records abstracted to numeric ids). -/
structure DispatchState where
  buffer : List Nat
  batches : List (List Nat)
deriving DecidableEq, Repr

/-- The buffering tail of `parse_property` (`funda_spider.py` lines
193-210): append the record; once `len(self.buffer) >= self.buffer_size`,
emit the whole buffer as one batch and reset it. -/
def parsePropertyStep (s : DispatchState) (item : Nat) : DispatchState :=
  let buf := s.buffer ++ [item]
  if bufferSize ≤ buf.length then
    { buffer := [], batches := s.batches ++ [buf] }
  else { s with buffer := buf }

/-- A run that scrapes the given records in order. -/
def runRecords (items : List Nat) : DispatchState :=
  items.foldl parsePropertyStep { buffer := [], batches := [] }

/-- The *body* of `closed` (`src/scripts/spiders/funda_spider.py` lines
542-565) as written: emit a non-empty buffer as one final batch.  This
body is dead code: `closed` ends with `yield batch` (line 565), which
makes the whole method a generator function, and Scrapy's
`spider_closed` signal discards the handler's return value without
iterating it — so no statement of `closed` ever executes at runtime. -/
def closedBody (s : DispatchState) : DispatchState :=
  if s.buffer.isEmpty then s
  else { buffer := [], batches := s.batches ++ [s.buffer] }

/-- What actually happens when the spider closes: invoking the
generator function `closed(reason)` merely creates a generator object
and executes none of its body, so the dispatcher state is unchanged and
whatever sits in the buffer stays there. -/
def closedCall (s : DispatchState) : DispatchState := s

/-! ## Crawl-stop lemmas -/

/-- Stop decision of one `parse` callback of the server active spider,
as a closed formula: the empty-pages check fires first, then the
no-new-listings check, then the page budget. -/
theorem parseStep_stopped (s : CrawlState) (p : PageInput)
    (h1 : s.stopped = none) (h2 : p.blocked = false) :
    (parseStep s p).stopped =
      if p.candidates.isEmpty = true ∧ 3 ≤ s.emptyPagesCount + 1 then
        some StopReason.emptyPages
      else if (p.candidates.filter (fun u =>
          decide (¬ u ∈ s.processedUrls ∧ ¬ u ∈ s.existingUrls))).isEmpty
            = true ∧ 3 ≤ s.noNewCount + 1 then
        some StopReason.noNewListings
      else
        match s.maxPages with
        | none => none
        | some m => if s.pageCount < m then none else some StopReason.maxPages
    := by
  simp only [parseStep]
  rw [if_neg (by simp [h1]), if_neg (by simp [h2])]
  by_cases hA : p.candidates.isEmpty = true ∧ 3 ≤ s.emptyPagesCount + 1
  · rw [if_pos hA, if_pos hA]
  · rw [if_neg hA, if_neg hA]
    by_cases hE : p.candidates.isEmpty = true
    · rw [if_pos hE]
      by_cases hB : (p.candidates.filter (fun u =>
          decide (¬ u ∈ s.processedUrls ∧ ¬ u ∈ s.existingUrls))).isEmpty
            = true ∧ 3 ≤ s.noNewCount + 1
      · rw [if_pos hB, if_pos hB]
      · rw [if_neg hB, if_neg hB]
        by_cases hN : (p.candidates.filter (fun u =>
            decide (¬ u ∈ s.processedUrls ∧ ¬ u ∈ s.existingUrls))).isEmpty
              = true
        · rw [if_pos hN]
          cases hm : s.maxPages with
          | none => exact h1
          | some m =>
              by_cases hlt : s.pageCount < m
              · simpa [hlt] using h1
              · simp [hlt]
        · rw [if_neg hN]
          cases hm : s.maxPages with
          | none => exact h1
          | some m =>
              by_cases hlt : s.pageCount < m
              · simpa [hlt] using h1
              · simp [hlt]
    · rw [if_neg hE]
      by_cases hB : (p.candidates.filter (fun u =>
          decide (¬ u ∈ s.processedUrls ∧ ¬ u ∈ s.existingUrls))).isEmpty
            = true ∧ 3 ≤ s.noNewCount + 1
      · rw [if_pos hB, if_pos hB]
      · rw [if_neg hB, if_neg hB]
        by_cases hN : (p.candidates.filter (fun u =>
            decide (¬ u ∈ s.processedUrls ∧ ¬ u ∈ s.existingUrls))).isEmpty
              = true
        · rw [if_pos hN]
          cases hm : s.maxPages with
          | none => exact h1
          | some m =>
              by_cases hlt : s.pageCount < m
              · simpa [hlt] using h1
              · simp [hlt]
        · rw [if_neg hN]
          cases hm : s.maxPages with
          | none => exact h1
          | some m =>
              by_cases hlt : s.pageCount < m
              · simpa [hlt] using h1
              · simp [hlt]

/-- A page with at least one candidate resets the consecutive-empty
counter (`funda_spider.py` line 135). -/
theorem parseStep_empty_reset (s : CrawlState) (p : PageInput)
    (h1 : s.stopped = none) (h2 : p.blocked = false)
    (h3 : p.candidates ≠ []) :
    (parseStep s p).emptyPagesCount = 0 := by
  have hE : ¬ (p.candidates.isEmpty = true) :=
    fun hc => h3 (List.isEmpty_iff.mp hc)
  simp only [parseStep]
  rw [if_neg (by simp [h1]), if_neg (by simp [h2]),
    if_neg (fun hc => hE hc.1), if_neg hE]
  repeat' split
  all_goals rfl

/-- A page yielding at least one new URL resets the consecutive-no-new
counter (`funda_spider.py` line 145). -/
theorem parseStep_no_new_reset (s : CrawlState) (p : PageInput)
    (h1 : s.stopped = none) (h2 : p.blocked = false)
    (h3 : p.candidates.filter (fun u =>
      decide (¬ u ∈ s.processedUrls ∧ ¬ u ∈ s.existingUrls)) ≠ []) :
    (parseStep s p).noNewCount = 0 := by
  have hN : ¬ ((p.candidates.filter (fun u =>
      decide (¬ u ∈ s.processedUrls ∧ ¬ u ∈ s.existingUrls))).isEmpty
        = true) := fun hc => h3 (List.isEmpty_iff.mp hc)
  have hE : ¬ (p.candidates.isEmpty = true) := by
    intro hc
    exact h3 (by rw [List.isEmpty_iff.mp hc]; rfl)
  simp only [parseStep]
  rw [if_neg (by simp [h1]), if_neg (by simp [h2]),
    if_neg (fun hc => hE hc.1), if_neg hE, if_neg (fun hc => hN hc.1),
    if_neg hN]
  repeat' split
  all_goals rfl

/-- The three-page scenario: pages 1-3 each yield a fresh candidate,
pages 4-6 yield none. -/
def pageWith (u : String) : PageInput := { blocked := false, candidates := [u] }

/-- A listing page yielding zero candidate URLs. -/
def emptyPage : PageInput := { blocked := false, candidates := [] }

/-- Pages 4-6 are the first three consecutive empty pages of the run. -/
def scenarioPages : List PageInput :=
  [pageWith "u1", pageWith "u2", pageWith "u3", emptyPage, emptyPage,
    emptyPage]

/-! ## C7 — the empty-pages stop condition -/

/-- C7: the run stops with the empty-pages condition exactly at the
third consecutive empty page.  Concretely, with pages 4-6 the first
three consecutive empty pages, the run is still running after page 5
and stops at page 6 (`page_count` is then 6) with the empty-pages
reason; generally, any page with at least one candidate resets the
counter to zero, and — for reachable counter values — a step stops with
the empty-pages reason iff the page is empty and the counter already
stood at 2. -/
theorem empty_pages_stop :
    ((runPages (initState [] none) (scenarioPages.take 5)).stopped = none ∧
      (runPages (initState [] none) scenarioPages).stopped
        = some StopReason.emptyPages ∧
      (runPages (initState [] none) scenarioPages).pageCount = 6) ∧
    (∀ (s : CrawlState) (p : PageInput), s.stopped = none →
      p.blocked = false → p.candidates ≠ [] →
      (parseStep s p).emptyPagesCount = 0) ∧
    (∀ (s : CrawlState) (p : PageInput), s.stopped = none →
      p.blocked = false → s.emptyPagesCount ≤ 2 →
      ((parseStep s p).stopped = some StopReason.emptyPages ↔
        p.candidates = [] ∧ s.emptyPagesCount = 2)) := by
  refine ⟨by decide, parseStep_empty_reset, ?_⟩
  intro s p h1 h2 hle
  rw [parseStep_stopped s p h1 h2]
  by_cases hA : p.candidates.isEmpty = true ∧ 3 ≤ s.emptyPagesCount + 1
  · rw [if_pos hA]
    exact iff_of_true rfl ⟨List.isEmpty_iff.mp hA.1, by omega⟩
  · rw [if_neg hA]
    apply iff_of_false
    · split
      · simp
      · cases s.maxPages with
        | none => simp
        | some m => split <;> simp
    · rintro ⟨hc, hcnt⟩
      exact hA ⟨by simp [hc], by omega⟩

theorem empty_pages_stop_witness :
    (parseStep (initState [] none) (pageWith "x")).emptyPagesCount = 0 :=
  empty_pages_stop.2.1 (initState [] none) (pageWith "x") rfl rfl (by decide)

/-! ## C8 — the no-new-listings stop condition -/

/-- C8 counterexample: the claim requires three consecutive pages of
already-seen candidates before the no-new-listings stop, and says a
single such page does not stop the run.  The sold spider
(`src/funda/spiders/funda_spider_sold.py` lines 169-172) has no counter:
it stops the moment one page yields no new listings.  Here the store
already knows `"u1"`, page 1's only candidate is `"u1"`, and the run
stops immediately after that single page. -/
theorem sold_spider_single_page_stop_cex :
    (soldParseStep (initSoldState ["u1"] 200)
      { blocked := false, candidates := ["u1"] }).stopped
      = some StopReason.noNewListings := by decide

/-- C8 amended: the two spiders differ.  The server active spider stops
with the no-new-listings reason after 3 consecutive pages yielding zero
new URLs — a page with *no candidates at all* also advances this counter
(so the three pages need not all have candidates), and the counter
resets on any page yielding a new URL.  The sold spider stops at the
*first* page that yields no new listings. -/
theorem no_new_listings_stop_amended :
    (∀ (s : CrawlState) (p : PageInput), s.stopped = none →
      p.blocked = false → s.emptyPagesCount ≤ 2 → s.noNewCount ≤ 2 →
      ¬(p.candidates = [] ∧ s.emptyPagesCount = 2) →
      ((parseStep s p).stopped = some StopReason.noNewListings ↔
        p.candidates.filter (fun u =>
          decide (¬ u ∈ s.processedUrls ∧ ¬ u ∈ s.existingUrls)) = [] ∧
        s.noNewCount = 2)) ∧
    (∀ (s : CrawlState) (p : PageInput), s.stopped = none →
      p.blocked = false →
      p.candidates.filter (fun u =>
        decide (¬ u ∈ s.processedUrls ∧ ¬ u ∈ s.existingUrls)) ≠ [] →
      (parseStep s p).noNewCount = 0) ∧
    (∀ (s : SoldState) (p : PageInput), s.stopped = none →
      p.blocked = false →
      p.candidates.filter (fun u =>
        decide (¬ u ∈ s.processedUrls ∧ ¬ u ∈ s.existingUrls)) = [] →
      (soldParseStep s p).stopped = some StopReason.noNewListings) := by
  refine ⟨?_, parseStep_no_new_reset, ?_⟩
  · intro s p h1 h2 hle1 hle2 hexcl
    rw [parseStep_stopped s p h1 h2]
    have hA : ¬(p.candidates.isEmpty = true ∧ 3 ≤ s.emptyPagesCount + 1) := by
      rintro ⟨hc, hcnt⟩
      exact hexcl ⟨List.isEmpty_iff.mp hc, by omega⟩
    rw [if_neg hA]
    by_cases hB : (p.candidates.filter (fun u =>
        decide (¬ u ∈ s.processedUrls ∧ ¬ u ∈ s.existingUrls))).isEmpty
          = true ∧ 3 ≤ s.noNewCount + 1
    · rw [if_pos hB]
      exact iff_of_true rfl ⟨List.isEmpty_iff.mp hB.1, by omega⟩
    · rw [if_neg hB]
      apply iff_of_false
      · cases s.maxPages with
        | none => simp
        | some m => split <;> simp
      · rintro ⟨hc, hcnt⟩
        exact hB ⟨by rw [hc]; rfl, by omega⟩
  · intro s p h1 h2 h3
    have hN : (p.candidates.filter (fun u =>
        decide (¬ u ∈ s.processedUrls ∧ ¬ u ∈ s.existingUrls))).isEmpty
          = true := by rw [h3]; rfl
    simp only [soldParseStep]
    rw [if_neg (by simp [h1]), if_neg (by simp [h2]), if_pos hN]

theorem no_new_listings_stop_amended_witness :
    (soldParseStep (initSoldState ["v"] 200)
      { blocked := false, candidates := ["v"] }).stopped
      = some StopReason.noNewListings :=
  no_new_listings_stop_amended.2.2 (initSoldState ["v"] 200)
    { blocked := false, candidates := ["v"] } rfl rfl (by decide)

/-! ## C9 — the close-time flush never runs -/

set_option maxRecDepth 4000 in
/-- C9: with batch size 100 and 150 records produced, the dispatcher
does emit exactly one batch — of the first 100 records — during the run
(`parse_property` is a request callback whose yields Scrapy consumes).
But at spider close nothing is flushed: `closed` is a generator function
(it ends with `yield batch`) that Scrapy's `spider_closed` signal never
iterates, so its state is unchanged and the remaining 50 records stay
stranded in the buffer — against the claim, the spec's no-record-left
rule, and the code's own comment at line 554 ("Ensure any remaining
items in buffer are processed when spider closes").  The last conjunct
evaluates the dead body as written: had it run, it would have flushed
exactly those 50 records. -/
theorem batch_close_flush_never_runs :
    (runRecords (List.range 150)).batches.map List.length = [100] ∧
    (runRecords (List.range 150)).buffer = (List.range 150).drop 100 ∧
    closedCall (runRecords (List.range 150)) = runRecords (List.range 150) ∧
    (closedBody (runRecords (List.range 150))).batches.map List.length
      = [100, 50] := by decide

end FundaMental
